import Mathlib

/-!
Verification of the rtic-scope/itm timestamp engine (src/itm/src/iter.rs)
and the Cortex-M exception table (src/itm/src/cortex_m.rs).

The crate-root packet decoder is not part of the sources under inspection;
the timestamp engine's input is therefore abstracted as the list of results
the decoder's successive `next_single` calls would produce, and where a
claim needs byte-level decoding it is modelled from the specification's
dispatch table and explicitly marked as such.

All u64/u32 quantities are modelled as `Nat`, with reductions modulo `2 ^ 64`
made explicit at the single place where a u64 shift can overflow
(`Gts.merge`).  `std::time::Duration` values are modelled as their whole
count of nanoseconds (every duration the engine builds comes out of
`Duration::from_nanos`).  `calc_offset` rounds with the exact rational
ceiling mandated by the specification; the source realises that ceiling
through `f64` arithmetic, which is out of scope of this embedding.
-/

namespace Itm

/-- `LocalTimestampOptions` from src/itm/src/cortex_m.rs. -/
inductive LocalTimestampOptions
  | Disabled
  | Enabled
  | EnabledDiv4
  | EnabledDiv16
  | EnabledDiv64
deriving DecidableEq, Repr

/-- `Exception` from src/itm/src/cortex_m.rs. -/
inductive Exception
  | NonMaskableInt
  | HardFault
  | MemoryManagement
  | BusFault
  | UsageFault
  | SecureFault
  | SVCall
  | DebugMonitor
  | PendSV
  | SysTick
deriving DecidableEq, Repr, Fintype

/-- `Exception::irqn` from src/itm/src/cortex_m.rs (the i8 return value is
modelled as `Int`; every arm is in `[-14, -1]`, far from i8 overflow). -/
def Exception.irqn : Exception → Int
  | .NonMaskableInt => -14
  | .HardFault => -13
  | .MemoryManagement => -12
  | .BusFault => -11
  | .UsageFault => -10
  | .SecureFault => -9
  | .SVCall => -5
  | .DebugMonitor => -4
  | .PendSV => -2
  | .SysTick => -1

/-- `VectActive` from src/itm/src/cortex_m.rs (the u16 interrupt number is
modelled as `Nat`). -/
inductive VectActive
  | ThreadMode
  | Exception (e : Exception)
  | Interrupt (irqn : Nat)
deriving DecidableEq, Repr

/-- `VectActive::from` from src/itm/src/cortex_m.rs (`from` is a Lean
keyword, hence the name `fromVect`; the u16 argument is modelled as `Nat`). -/
def VectActive.fromVect (vect_active : Nat) : Option VectActive :=
  match vect_active with
  | 0 => some .ThreadMode
  | 2 => some (.Exception .NonMaskableInt)
  | 3 => some (.Exception .HardFault)
  | 4 => some (.Exception .MemoryManagement)
  | 5 => some (.Exception .BusFault)
  | 6 => some (.Exception .UsageFault)
  | 7 => some (.Exception .SecureFault)
  | 11 => some (.Exception .SVCall)
  | 12 => some (.Exception .DebugMonitor)
  | 14 => some (.Exception .PendSV)
  | 15 => some (.Exception .SysTick)
  | n => if 16 ≤ n ∧ n < 512 then some (.Interrupt (n - 16)) else none

/-- `TimestampDataRelation` (declared at the crate root, used throughout
src/itm/src/iter.rs; the four LTS1 quality grades). -/
inductive TimestampDataRelation
  | Sync
  | UnknownDelay
  | AssocEventDelay
  | UnknownAssocEventDelay
deriving DecidableEq, Repr

/-- Modelled from the spec: `MalformedPacket` (crate root, not under src/)
carries the header octet plus any payload bytes consumed; the timestamp
engine treats it opaquely. -/
structure MalformedPacket where
  bytes : List Nat
deriving DecidableEq, Repr

/-- `ExceptionAction` of `TracePacket::ExceptionTrace` per the spec's data
model. -/
inductive ExceptionAction
  | Entered
  | Exited
  | Returned
deriving DecidableEq, Repr

/-- `TracePacket` (crate root, not under src/); the variants follow the
spec's data model.  The timestamp engine inspects only the four timestamp
variants and passes every other packet through opaquely, so the payloads of
the pass-through variants play no computational role here. -/
inductive TracePacket
  | Sync
  | Overflow
  | LocalTimestamp1 (ts : Nat) (data_relation : TimestampDataRelation)
  | LocalTimestamp2 (ts : Nat)
  | GlobalTimestamp1 (ts : Nat) (wrap : Bool) (clkch : Bool)
  | GlobalTimestamp2 (ts : Nat)
  | Extension (page : Nat)
  | ItmData (port : Nat) (payload : List Nat)
  | EventCounterWrap (cyc : Bool) (fold : Bool)
  | ExceptionTrace (exception : Exception) (action : ExceptionAction)
  | PCSample (pc : Option Nat)
  | DataTraceEvent (comparator : Nat)
deriving DecidableEq, Repr

/-- `DecoderErrorInt` (crate root): the internal error type
`Timestamps::next_timestamped` matches on in src/itm/src/iter.rs. -/
inductive DecoderErrorInt
  | Eof
  | IoError
  | MalformedPacket (m : MalformedPacket)
deriving DecidableEq, Repr

/-- `DecoderError` (crate root): the public error type produced by the
`Iterator` impls in src/itm/src/iter.rs (no `Eof`: end of stream becomes end
of iteration). -/
inductive DecoderError
  | IoError
  | MalformedPacket (m : MalformedPacket)
deriving DecidableEq, Repr

/-- One result of a `Decoder::next_single` call, as seen by the timestamp
engine.  A stream of such results abstracts the decoder (whose source file is
not under src/); exhaustion of the list models `Err(Eof)`. -/
inductive DecodeResult
  | packet (p : TracePacket)
  | ioError
  | malformed (m : MalformedPacket)
deriving DecidableEq, Repr

/-- `Timestamp` from src/itm/src/iter.rs; `Duration` fields are whole
nanosecond counts. -/
inductive Timestamp
  | Sync (d : Nat)
  | UnknownDelay (prev : Nat) (curr : Nat)
  | AssocEventDelay (d : Nat)
  | UnknownAssocEventDelay (prev : Nat) (curr : Nat)
deriving DecidableEq, Repr

/-- `TimestampsConfiguration` from src/itm/src/iter.rs. -/
structure TimestampsConfiguration where
  clock_frequency : Nat
  lts_prescaler : LocalTimestampOptions
  expect_malformed : Bool
deriving DecidableEq, Repr

/-- `TimestampedTracePackets` from src/itm/src/iter.rs. -/
structure TimestampedTracePackets where
  timestamp : Timestamp
  packets : List TracePacket
  malformed_packets : List MalformedPacket
  consumed_packets : Nat
deriving DecidableEq, Repr

/-- Fuel-bounded binary length of a `Nat` (number of significant bits);
`bitLen 64 n` is exact for every `n < 2 ^ 64`. -/
def bitLen : Nat → Nat → Nat
  | 0, _ => 0
  | fuel + 1, n => if n = 0 then 0 else bitLen fuel (n / 2) + 1

/-- `u64::leading_zeros` of the Rust standard library, for values below
`2 ^ 64`. -/
def leading_zeros (n : Nat) : Nat := 64 - bitLen 64 n

/-- `Gts` from src/itm/src/iter.rs:143. -/
structure Gts where
  lower : Option Nat
  upper : Option Nat
deriving DecidableEq, Repr

/-- `Gts::GTS2_SHIFT` from src/itm/src/iter.rs:148. -/
def Gts.GTS2_SHIFT : Nat := 26

/-- `Gts::replace_lower` from src/itm/src/iter.rs:150.  The source computes
`shift = 64 - new.leading_zeros()` on u64; `Nat` shifts agree with Rust's for
every shift amount below 64, i.e. whenever `new < 2 ^ 63`. -/
def Gts.replace_lower (g : Gts) (new : Nat) : Gts :=
  { g with
    lower :=
      match g.lower with
      | none => some new
      | some old =>
          let shift := 64 - leading_zeros new
          some (((old >>> shift) <<< shift) ||| new) }

/-- `Gts::reset` from src/itm/src/iter.rs:160. -/
def Gts.reset (_g : Gts) : Gts := { lower := none, upper := none }

/-- `Gts::merge` from src/itm/src/iter.rs:165.  `upper << 26` is a u64
shift whose overflow silently discards high bits, hence the explicit
reduction modulo `2 ^ 64` (`checked_shl` only rejects shift amounts ≥ 64,
which the constant 26 never is). -/
def Gts.merge (g : Gts) : Option Nat :=
  match g.lower, g.upper with
  | some lower, some upper => some ((upper <<< Gts.GTS2_SHIFT) % 2 ^ 64 ||| lower)
  | _, _ => none

/-- `calc_offset` from src/itm/src/iter.rs:359, returning whole nanoseconds.
The source computes `ceil((ts * prescale / freq) * 1e9)` through `f64`
arithmetic; this model computes the exact rational ceiling the specification
mandates, `(ticks * 10^9 + freq - 1) / freq` over `Nat`.  The `Disabled`
prescaler arm is `unreachable!()` in the source (excluded by
`Timestamps::new`); it is given the neutral divisor 1 here. -/
def calc_offset (ts : Nat) (prescaler : Option LocalTimestampOptions) (freq : Nat) : Nat :=
  let prescale : Nat :=
    match prescaler with
    | none | some .Enabled => 1
    | some .EnabledDiv4 => 4
    | some .EnabledDiv16 => 16
    | some .EnabledDiv64 => 64
    | some .Disabled => 1
  let ticks := ts * prescale
  (ticks * 1000000000 + freq - 1) / freq

/-- The mutable fields of `Timestamps` from src/itm/src/iter.rs:131 (the
decoder handle lives outside the embedding and the configuration is frozen,
so only the running state remains). -/
structure TimestampsState where
  current_offset : Nat
  gts : Gts
  prev_lts : Nat
deriving DecidableEq, Repr

/-- The state `Timestamps::new` installs (src/itm/src/iter.rs:204). -/
def initial_state : TimestampsState :=
  { current_offset := 0, gts := { lower := none, upper := none }, prev_lts := 0 }

/-- The `unimplemented!` panic of `Timestamps::new` (src/itm/src/iter.rs:201),
modelled as an `Except` error. -/
inductive ConstructionPanic
  | UnimplementedDisabledPrescaler
deriving DecidableEq, Repr

/-- `Timestamps::new` from src/itm/src/iter.rs:199: the only validation is
the `lts_prescaler == Disabled` check, which panics (modelled as the error
branch); everything else succeeds with the zeroed initial state. -/
def Timestamps.new (options : TimestampsConfiguration) :
    Except ConstructionPanic TimestampsState :=
  if options.lts_prescaler = .Disabled then .error .UnimplementedDisabledPrescaler
  else .ok initial_state

/-- `apply_lts` from src/itm/src/iter.rs:230.  The source mutates
`prev_offset` and `current_offset` through `&mut`; here the emitted
`Timestamp` is returned together with the updated pair
`(prev_offset, current_offset)`. -/
def apply_lts (prev_offset : Nat) (lts : Nat) (data_relation : TimestampDataRelation)
    (current_offset : Nat) (options : TimestampsConfiguration) :
    Timestamp × Nat × Nat :=
  let offset := calc_offset lts (some options.lts_prescaler) options.clock_frequency
  let current := current_offset + offset
  let ts :=
    match data_relation with
    | .Sync => Timestamp.Sync current
    | .UnknownDelay => Timestamp.UnknownDelay prev_offset current
    | .AssocEventDelay => Timestamp.AssocEventDelay current
    | .UnknownAssocEventDelay => Timestamp.UnknownAssocEventDelay prev_offset current
  (ts, current, current)

/-- `apply_gts` from src/itm/src/iter.rs:260, returning the updated
`current_offset` (unchanged when the halves cannot merge). -/
def apply_gts (gts : Gts) (current_offset : Nat) (options : TimestampsConfiguration) : Nat :=
  match gts.merge with
  | some g => calc_offset g none options.clock_frequency
  | none => current_offset

/-- The `GlobalTimestamp1` arm of `Timestamps::next_timestamped`
(src/itm/src/iter.rs:308): overlay the lower half first, then branch on
`wrap` / `clkch` / merge. -/
def gts1_step (options : TimestampsConfiguration) (st : TimestampsState)
    (ts : Nat) (wrap clkch : Bool) : TimestampsState :=
  let g := st.gts.replace_lower ts
  if wrap then { st with gts := { g with upper := none } }
  else if clkch then { st with gts := g.reset }
  else { st with gts := g, current_offset := apply_gts g st.current_offset options }

/-- The `GlobalTimestamp2` arm of `Timestamps::next_timestamped`
(src/itm/src/iter.rs:329): set the upper half, then merge. -/
def gts2_step (options : TimestampsConfiguration) (st : TimestampsState)
    (ts : Nat) : TimestampsState :=
  let g := { st.gts with upper := some ts }
  { st with gts := g, current_offset := apply_gts g st.current_offset options }

/-- `Timestamps::next_timestamped` from src/itm/src/iter.rs:220.  The
decoder is abstracted as the list of its successive `next_single` results
(exhaustion models `Err(Eof)`); `packets`, `malformed` and `consumed` are the
local accumulators of the source's loop; on success the remaining input is
returned alongside the group and the updated engine state. -/
def next_timestamped (options : TimestampsConfiguration) :
    TimestampsState → List DecodeResult → List TracePacket → List MalformedPacket → Nat →
    Except DecoderErrorInt (TimestampedTracePackets × TimestampsState × List DecodeResult)
  | _, [], _, _, _ => .error .Eof
  | st, .malformed m :: rest, packets, malformed, consumed =>
      if options.expect_malformed then
        next_timestamped options st rest packets (malformed ++ [m]) (consumed + 1)
      else .error (.MalformedPacket m)
  | _, .ioError :: _, _, _, _ => .error .IoError
  | st, .packet p :: rest, packets, malformed, consumed =>
      match p with
      | .LocalTimestamp1 ts data_relation =>
          let r := apply_lts st.prev_lts ts data_relation st.current_offset options
          .ok ({ timestamp := r.1, packets := packets, malformed_packets := malformed,
                 consumed_packets := consumed + 1 },
               { st with prev_lts := r.2.1, current_offset := r.2.2 }, rest)
      | .LocalTimestamp2 ts =>
          let r := apply_lts st.prev_lts ts .Sync st.current_offset options
          .ok ({ timestamp := r.1, packets := packets, malformed_packets := malformed,
                 consumed_packets := consumed + 1 },
               { st with prev_lts := r.2.1, current_offset := r.2.2 }, rest)
      | .GlobalTimestamp1 ts wrap clkch =>
          next_timestamped options (gts1_step options st ts wrap clkch) rest
            packets malformed (consumed + 1)
      | .GlobalTimestamp2 ts =>
          next_timestamped options (gts2_step options st ts) rest
            packets malformed (consumed + 1)
      | p => next_timestamped options st rest (packets ++ [p]) malformed (consumed + 1)

/-- `next_timestamped` as entered from `Timestamps::next`: fresh accumulators
(src/itm/src/iter.rs:226). -/
def next_group (options : TimestampsConfiguration) (st : TimestampsState)
    (input : List DecodeResult) :
    Except DecoderErrorInt (TimestampedTracePackets × TimestampsState × List DecodeResult) :=
  next_timestamped options st input [] [] 0

/-- `Timestamps::next` (the `Iterator` impl) from src/itm/src/iter.rs:347:
`Eof` becomes end of iteration, the other errors are re-wrapped. -/
def Timestamps.next (options : TimestampsConfiguration) (st : TimestampsState)
    (input : List DecodeResult) :
    Option (Except DecoderError (TimestampedTracePackets × TimestampsState × List DecodeResult)) :=
  match next_group options st input with
  | .error .Eof => none
  | .error .IoError => some (.error .IoError)
  | .error (.MalformedPacket m) => some (.error (.MalformedPacket m))
  | .ok r => some (.ok r)

/-- Modelled from the spec: the single-byte rows of the packet decoder's
dispatch table in §4.1 (the decoder's own source file is not under src/).
Header `0` is Sync; `0b0111_0000` is Overflow; a nonzero header whose bit 7
and low nibble are clear is LocalTimestamp2 with `ts` = bits 6–4.  The
multi-byte families are not modelled (`none`). -/
def decode_single (b : Nat) : Option TracePacket :=
  if b = 0 then some .Sync
  else if b = 0b01110000 then some .Overflow
  else if b &&& 0b10001111 = 0 then some (.LocalTimestamp2 ((b >>> 4) &&& 0b111))
  else none

/-- Modelled from the spec: a byte stream decoded packetwise through
`decode_single`; bytes outside the modelled single-byte families are
dropped. -/
def decode_stream (bytes : List Nat) : List DecodeResult :=
  bytes.filterMap fun b => (decode_single b).map DecodeResult.packet

/-- Drive the `Timestamps` iterator to exhaustion: repeatedly call
`next_group`, collecting groups until any error (Eof included) stops the
iteration.  The fuel bounds the recursion; `input.length + 1` suffices since
every group consumes at least one decoder result. -/
def collect_groups (options : TimestampsConfiguration) :
    Nat → TimestampsState → List DecodeResult → List TimestampedTracePackets
  | 0, _, _ => []
  | fuel + 1, st, input =>
      match next_group options st input with
      | .ok (g, st', rest) => g :: collect_groups options fuel st' rest
      | .error _ => []

/-- The full pipeline on a byte stream: spec-modelled decoding followed by
the timestamp engine started from the state `Timestamps::new` installs. -/
def run_stream (options : TimestampsConfiguration) (bytes : List Nat) :
    List TimestampedTracePackets :=
  let input := decode_stream bytes
  collect_groups options (input.length + 1) initial_state input

/-- Whether a packet is one of the two global-timestamp families. -/
def isGtsPacket : TracePacket → Bool
  | .GlobalTimestamp1 _ _ _ => true
  | .GlobalTimestamp2 _ => true
  | _ => false

/-- Whether a packet is one of the two local-timestamp families (the
group-closing packets). -/
def isLtsPacket : TracePacket → Bool
  | .LocalTimestamp1 _ _ => true
  | .LocalTimestamp2 _ => true
  | _ => false

/-- Count of global-timestamp packets among a list of decoder results. -/
def countGts : List DecodeResult → Nat
  | [] => 0
  | .packet p :: l => countGts l + (if isGtsPacket p then 1 else 0)
  | _ :: l => countGts l

/-- Count of pass-through data packets (neither local- nor global-timestamp)
among a list of decoder results. -/
def countData : List DecodeResult → Nat
  | [] => 0
  | .packet p :: l => countData l + (if !isGtsPacket p && !isLtsPacket p then 1 else 0)
  | _ :: l => countData l

/-- Count of malformed-packet results among a list of decoder results. -/
def countMal : List DecodeResult → Nat
  | [] => 0
  | .malformed _ :: l => countMal l + 1
  | _ :: l => countMal l

/-- Claim C1: a `LocalTimestamp1` packet closes the group with the variant
chosen by its `data_relation` — `Sync` and `AssocEventDelay` carry the new
`current_offset`, the two interval variants pair the prior `prev_lts` with
the new `current_offset` — a `LocalTimestamp2` packet always closes with the
`Sync` variant, and in the state after either emission `prev_lts` has been
set to the new `current_offset`. -/
theorem c1_lts_close_variants (options : TimestampsConfiguration) (st : TimestampsState)
    (ts : Nat) (dr : TimestampDataRelation) (rest : List DecodeResult)
    (ps : List TracePacket) (ms : List MalformedPacket) (c : Nat) :
    (next_timestamped options st (.packet (.LocalTimestamp1 ts dr) :: rest) ps ms c =
      .ok ({ timestamp :=
               match dr with
               | .Sync => .Sync (st.current_offset +
                   calc_offset ts (some options.lts_prescaler) options.clock_frequency)
               | .UnknownDelay => .UnknownDelay st.prev_lts (st.current_offset +
                   calc_offset ts (some options.lts_prescaler) options.clock_frequency)
               | .AssocEventDelay => .AssocEventDelay (st.current_offset +
                   calc_offset ts (some options.lts_prescaler) options.clock_frequency)
               | .UnknownAssocEventDelay => .UnknownAssocEventDelay st.prev_lts
                   (st.current_offset +
                    calc_offset ts (some options.lts_prescaler) options.clock_frequency),
             packets := ps, malformed_packets := ms, consumed_packets := c + 1 },
           { st with
             current_offset := st.current_offset +
               calc_offset ts (some options.lts_prescaler) options.clock_frequency,
             prev_lts := st.current_offset +
               calc_offset ts (some options.lts_prescaler) options.clock_frequency },
           rest))
    ∧ (next_timestamped options st (.packet (.LocalTimestamp2 ts) :: rest) ps ms c =
      .ok ({ timestamp := .Sync (st.current_offset +
               calc_offset ts (some options.lts_prescaler) options.clock_frequency),
             packets := ps, malformed_packets := ms, consumed_packets := c + 1 },
           { st with
             current_offset := st.current_offset +
               calc_offset ts (some options.lts_prescaler) options.clock_frequency,
             prev_lts := st.current_offset +
               calc_offset ts (some options.lts_prescaler) options.clock_frequency },
           rest)) := by
  constructor
  · cases dr <;> rfl
  · rfl

/-- Claim C5 counterexample: `Timestamps::new` accepts a configuration whose
clock frequency is zero (with an enabled prescaler), so construction does not
fail on zero frequency as claimed. -/
theorem c5_counterexample :
    (Timestamps.new { clock_frequency := 0, lts_prescaler := .Enabled,
                      expect_malformed := false }).isOk = true := by
  decide

/-- Claim C5 (amended): construction of the timestamp engine fails exactly
when the configuration's `lts_prescaler` is `Disabled` (and the failure is
the `unimplemented!` panic, not a typed configuration error); the clock
frequency is not validated. -/
theorem c5_construction (options : TimestampsConfiguration) :
    (Timestamps.new options = .error .UnimplementedDisabledPrescaler ↔
      options.lts_prescaler = .Disabled)
    ∧ (Timestamps.new options = .ok initial_state ↔
      ¬options.lts_prescaler = .Disabled) := by
  unfold Timestamps.new
  by_cases h : options.lts_prescaler = .Disabled <;> simp [h]

/-- Claim C7: neither global-timestamp arm of the engine touches `prev_lts`
(a GTS merge rewrites only `current_offset`), and consequently an
`UnknownDelay` or `UnknownAssocEventDelay` group emitted right after a GTS2
reports as `prev` the `prev_lts` value that predates the GTS reset. -/
theorem c7_gts_preserves_prev_lts (options : TimestampsConfiguration)
    (st : TimestampsState) (ts u lts : Nat) (wrap clkch : Bool)
    (rest : List DecodeResult) (ps : List TracePacket) (ms : List MalformedPacket) (c : Nat) :
    (gts1_step options st ts wrap clkch).prev_lts = st.prev_lts
    ∧ (gts2_step options st u).prev_lts = st.prev_lts
    ∧ (next_timestamped options st
        (.packet (.GlobalTimestamp2 u) :: .packet (.LocalTimestamp1 lts .UnknownDelay) :: rest)
        ps ms c =
      .ok ({ timestamp := .UnknownDelay st.prev_lts
               ((gts2_step options st u).current_offset +
                calc_offset lts (some options.lts_prescaler) options.clock_frequency),
             packets := ps, malformed_packets := ms, consumed_packets := c + 2 },
           { gts2_step options st u with
             current_offset := (gts2_step options st u).current_offset +
               calc_offset lts (some options.lts_prescaler) options.clock_frequency,
             prev_lts := (gts2_step options st u).current_offset +
               calc_offset lts (some options.lts_prescaler) options.clock_frequency },
           rest))
    ∧ (next_timestamped options st
        (.packet (.GlobalTimestamp2 u) ::
           .packet (.LocalTimestamp1 lts .UnknownAssocEventDelay) :: rest)
        ps ms c =
      .ok ({ timestamp := .UnknownAssocEventDelay st.prev_lts
               ((gts2_step options st u).current_offset +
                calc_offset lts (some options.lts_prescaler) options.clock_frequency),
             packets := ps, malformed_packets := ms, consumed_packets := c + 2 },
           { gts2_step options st u with
             current_offset := (gts2_step options st u).current_offset +
               calc_offset lts (some options.lts_prescaler) options.clock_frequency,
             prev_lts := (gts2_step options st u).current_offset +
               calc_offset lts (some options.lts_prescaler) options.clock_frequency },
           rest)) := by
  refine ⟨?_, rfl, rfl, rfl⟩
  cases wrap <;> cases clkch <;> rfl

/-- Claim C9: for every defined exception, converting its IRQ number shifted
back into vector-number space through `VectActive::from` recovers the
original exception; `irqn` is injective over the defined set; and its values
all lie in `[-14, -1]`. -/
theorem c9_exception_roundtrip :
    (∀ e : Exception, VectActive.fromVect (e.irqn + 16).toNat = some (.Exception e))
    ∧ (∀ a b : Exception, a.irqn = b.irqn → a = b)
    ∧ (∀ e : Exception, -14 ≤ e.irqn ∧ e.irqn ≤ -1) := by
  refine ⟨?_, ?_, ?_⟩ <;> decide

/-- Witness for Claim C9's theorem, discharging its equality hypothesis at a
concrete pair of exceptions and evaluating the round trip at one of them. -/
theorem c9_exception_roundtrip_witness :
    VectActive.fromVect (Exception.HardFault.irqn + 16).toNat
      = some (.Exception .HardFault)
    ∧ Exception.PendSV = Exception.PendSV :=
  ⟨c9_exception_roundtrip.1 .HardFault,
   c9_exception_roundtrip.2.1 .PendSV .PendSV rfl⟩

/-- Claim C6: on an exhausted stream (the decoder reporting `Eof`) the
engine propagates `Eof` (no partial group), no matter how many non-timestamp
packets have been accumulated; the iterator turns that into end of iteration,
and an empty stream yields no groups at all. -/
theorem c6_eof_propagation :
    (∀ (options : TimestampsConfiguration) (st : TimestampsState) ps ms c,
       next_timestamped options st [] ps ms c = .error .Eof)
    ∧ (∀ (options : TimestampsConfiguration) (input : List DecodeResult),
        (∀ ev ∈ input, ∃ p, ev = DecodeResult.packet p ∧ isLtsPacket p = false) →
        ∀ st ps ms c, next_timestamped options st input ps ms c = .error .Eof)
    ∧ (∀ (options : TimestampsConfiguration) (st : TimestampsState),
       Timestamps.next options st [] = none)
    ∧ (∀ (options : TimestampsConfiguration) (st : TimestampsState) fuel,
       collect_groups options fuel st [] = []) := by
  refine ⟨fun _ _ _ _ _ => rfl, ?_, fun _ _ => rfl, fun _ _ fuel => by cases fuel <;> rfl⟩
  intro options input h
  induction input with
  | nil => intro st ps ms c; rfl
  | cons ev rest ih =>
    intro st ps ms c
    obtain ⟨p, rfl, hp⟩ := h ev (List.mem_cons_self ev rest)
    have hrest : ∀ ev ∈ rest, ∃ p, ev = DecodeResult.packet p ∧ isLtsPacket p = false :=
      fun ev hev => h ev (List.mem_cons_of_mem _ hev)
    cases p with
    | LocalTimestamp1 ts dr => simp [isLtsPacket] at hp
    | LocalTimestamp2 ts => simp [isLtsPacket] at hp
    | GlobalTimestamp1 ts wrap clkch => exact ih hrest _ _ _ _
    | GlobalTimestamp2 ts => exact ih hrest _ _ _ _
    | Sync => exact ih hrest _ _ _ _
    | Overflow => exact ih hrest _ _ _ _
    | Extension page => exact ih hrest _ _ _ _
    | ItmData port payload => exact ih hrest _ _ _ _
    | EventCounterWrap cyc fold => exact ih hrest _ _ _ _
    | ExceptionTrace e a => exact ih hrest _ _ _ _
    | PCSample pc => exact ih hrest _ _ _ _
    | DataTraceEvent comparator => exact ih hrest _ _ _ _

/-- Witness for Claim C6's theorem: two accumulated non-timestamp packets
followed by stream exhaustion still propagate `Eof`. -/
theorem c6_eof_propagation_witness :
    next_timestamped { clock_frequency := 16000000, lts_prescaler := .Enabled,
                       expect_malformed := false }
      initial_state [.packet .Overflow, .packet (.GlobalTimestamp2 5)] [] [] 0
      = .error .Eof := by
  apply c6_eof_propagation.2.1
  intro ev hev
  rcases hev with _ | ⟨_, hev⟩
  · exact ⟨.Overflow, rfl, rfl⟩
  · rcases hev with _ | ⟨_, hev⟩
    · exact ⟨.GlobalTimestamp2 5, rfl, rfl⟩
    · cases hev

/-- Claim C2: a `GlobalTimestamp1` packet is consumed in place — the lower
half is overlaid first, then `wrap` clears the upper half, otherwise `clkch`
resets both halves, otherwise the halves merge; a `GlobalTimestamp2` packet
sets the upper half and merges; a merge happens only when both halves are
present, computes `(upper <<< 26) ||| lower` (a u64 shift, hence the modulus)
and overwrites `current_offset` with the absolute ceiling
`⌈ticks * 10^9 / f⌉`, discarding the accumulated value. -/
theorem c2_gts_application (options : TimestampsConfiguration) (st : TimestampsState)
    (ts u l m cur : Nat) (wrap clkch : Bool) (g : Gts)
    (rest : List DecodeResult) (ps : List TracePacket) (ms : List MalformedPacket) (c : Nat) :
    (next_timestamped options st (.packet (.GlobalTimestamp1 ts wrap clkch) :: rest) ps ms c =
       next_timestamped options (gts1_step options st ts wrap clkch) rest ps ms (c + 1))
    ∧ gts1_step options st ts true clkch =
        { st with gts := { lower := (st.gts.replace_lower ts).lower, upper := none } }
    ∧ gts1_step options st ts false true =
        { st with gts := { lower := none, upper := none } }
    ∧ gts1_step options st ts false false =
        { st with gts := st.gts.replace_lower ts,
                  current_offset :=
                    apply_gts (st.gts.replace_lower ts) st.current_offset options }
    ∧ (next_timestamped options st (.packet (.GlobalTimestamp2 u) :: rest) ps ms c =
       next_timestamped options (gts2_step options st u) rest ps ms (c + 1))
    ∧ gts2_step options st u =
        { st with gts := { lower := st.gts.lower, upper := some u },
                  current_offset :=
                    apply_gts { lower := st.gts.lower, upper := some u }
                      st.current_offset options }
    ∧ Gts.merge { lower := some l, upper := some u } = some ((u <<< 26) % 2 ^ 64 ||| l)
    ∧ Gts.merge { lower := none, upper := g.upper } = none
    ∧ Gts.merge { lower := g.lower, upper := none } = none
    ∧ (g.merge = some m → apply_gts g cur options = calc_offset m none options.clock_frequency)
    ∧ (g.merge = none → apply_gts g cur options = cur)
    ∧ calc_offset m none options.clock_frequency
        = (m * 1000000000 + options.clock_frequency - 1) / options.clock_frequency := by
  refine ⟨?_, ?_, ?_, ?_, ?_, ?_, ?_, ?_, ?_, ?_, ?_, ?_⟩
  · cases wrap <;> cases clkch <;> rfl
  · rfl
  · rfl
  · rfl
  · rfl
  · rfl
  · rfl
  · rfl
  · cases hl : g.lower <;> rfl
  · intro h; unfold apply_gts; rw [h]
  · intro h; unfold apply_gts; rw [h]
  · simp [calc_offset]

/-- Witness for Claim C2's theorem, discharging its merge hypotheses on the
concrete GTS state `(lower, upper) = (1, 1)` from the repo's own unit test:
the merge overwrites an accumulated offset of 999 ns with the absolute
ceiling of 67108865 ticks. -/
theorem c2_gts_application_witness :
    (apply_gts { lower := some 1, upper := some 1 } 999
       { clock_frequency := 16000000, lts_prescaler := .Enabled,
         expect_malformed := false }
       = calc_offset 67108865 none 16000000)
    ∧ apply_gts { lower := some 1, upper := none } 999
        { clock_frequency := 16000000, lts_prescaler := .Enabled,
          expect_malformed := false } = 999 :=
  ⟨(c2_gts_application
      { clock_frequency := 16000000, lts_prescaler := .Enabled, expect_malformed := false }
      initial_state 0 1 1 67108865 999 false false { lower := some 1, upper := some 1 }
      [] [] [] 0).2.2.2.2.2.2.2.2.2.1 rfl,
   (c2_gts_application
      { clock_frequency := 16000000, lts_prescaler := .Enabled, expect_malformed := false }
      initial_state 0 1 1 67108865 999 false false { lower := some 1, upper := none }
      [] [] [] 0).2.2.2.2.2.2.2.2.2.2.1 rfl⟩

/-- Claim C8 counterexample: on the single-byte input `[0b0110_0000]` with a
16 MHz clock and prescaler `Enabled`, the engine emits exactly one group with
empty packet lists — but its timestamp is `Sync 375` ns, not the claimed
`Sync 188` ns: bits 6–4 of that byte decode to the LTS2 tick value 6, not 3
(the repo's own `gts_compression` test pins 375 ns for this very byte). -/
theorem c8_counterexample :
    run_stream { clock_frequency := 16000000, lts_prescaler := .Enabled,
                 expect_malformed := false } [0b01100000]
      = [{ timestamp := .Sync 375, packets := [], malformed_packets := [],
           consumed_packets := 1 }]
    ∧ Timestamp.Sync 375 ≠ Timestamp.Sync 188 := by
  refine ⟨by decide, by decide⟩

/-- Claim C8 (amended): the byte `0b0110_0000` decodes to a `LocalTimestamp2`
with tick value 6 (bits 6–4), and on that single-byte input with a 16 MHz
clock and prescaler `Enabled` the engine emits exactly one group with empty
packets and timestamp `Sync (ceil(6 / 16e6 * 1e9)) = Sync 375` ns. -/
theorem c8_single_lts2 :
    decode_single 0b01100000 = some (.LocalTimestamp2 6)
    ∧ run_stream { clock_frequency := 16000000, lts_prescaler := .Enabled,
                   expect_malformed := false } [0b01100000]
        = [{ timestamp := .Sync 375, packets := [], malformed_packets := [],
             consumed_packets := 1 }]
    ∧ calc_offset 6 (some .Enabled) 16000000 = 375 := by
  refine ⟨by decide, by decide, by decide⟩

/-- The fuel bounds the binary length. -/
theorem bitLen_le (fuel n : Nat) : bitLen fuel n ≤ fuel := by
  induction fuel generalizing n with
  | zero => simp [bitLen]
  | succ f ih =>
    unfold bitLen
    by_cases h : n = 0
    · simp [h]
    · simp only [h, if_false]
      exact Nat.succ_le_succ (ih (n / 2))

/-- With enough fuel, a number is below two to its binary length. -/
theorem lt_two_pow_bitLen (fuel n : Nat) (h : n < 2 ^ fuel) : n < 2 ^ bitLen fuel n := by
  induction fuel generalizing n with
  | zero => simpa [bitLen] using h
  | succ f ih =>
    unfold bitLen
    by_cases h0 : n = 0
    · simp [h0]
    · simp only [h0, if_false]
      have hp : 2 ^ (f + 1) = 2 ^ f * 2 := by rw [pow_succ]
      have hdiv : n / 2 < 2 ^ f := by omega
      have hrec := ih (n / 2) hdiv
      have hp2 : 2 ^ (bitLen f (n / 2) + 1) = 2 ^ bitLen f (n / 2) * 2 := by rw [pow_succ]
      omega

/-- Clearing the low `s` bits by a shift round trip equals masking with the
u64 complement of `2 ^ s - 1`. -/
theorem shiftRight_shiftLeft_eq (L s : Nat) (hL : L < 2 ^ 64) (hs : s ≤ 64) :
    (L >>> s) <<< s = L &&& ((2 ^ 64 - 1) ^^^ (2 ^ s - 1)) := by
  apply Nat.eq_of_testBit_eq
  intro i
  simp only [Nat.testBit_shiftLeft, Nat.testBit_shiftRight, Nat.testBit_and,
    Nat.testBit_xor, Nat.testBit_two_pow_sub_one]
  by_cases h1 : s ≤ i
  · have hi : s + (i - s) = i := by omega
    by_cases h2 : i < 64
    · simp [ge_iff_le, h1, hi, h2, Nat.not_lt.mpr h1]
    · have hbit : L.testBit i = false :=
        Nat.testBit_lt_two_pow
          (lt_of_lt_of_le hL (Nat.pow_le_pow_right (by norm_num) (Nat.le_of_not_lt h2)))
      simp [ge_iff_le, h1, hi, h2, hbit]
  · have hi64 : i < 64 := lt_of_lt_of_le (Nat.lt_of_not_le h1) hs
    simp [ge_iff_le, h1, hi64, Nat.lt_of_not_le h1]

/-- Claim C4: overlaying a compressed GTS1 update `n` of bit-width `w`
(`w = bitLen 64 n`, the number of significant bits) onto a prior lower value
`L` yields `(L & ~((1 << w) - 1)) | n`, the u64 complement being written out
as `(2 ^ 64 - 1) ^^^ (2 ^ w - 1)`; with no prior lower the new lower is `n`
itself.  The bound `n < 2 ^ 63` keeps the source's `64 - leading_zeros`
shift amount below 64, where Rust's u64 shift is defined and agrees with the
`Nat` shift used here. -/
theorem c4_replace_lower (L n : Nat) (u : Option Nat)
    (hL : L < 2 ^ 64) (hn : n < 2 ^ 63) :
    (Gts.replace_lower { lower := some L, upper := u } n).lower
      = some ((L &&& ((2 ^ 64 - 1) ^^^ (2 ^ bitLen 64 n - 1))) ||| n)
    ∧ (Gts.replace_lower { lower := none, upper := u } n).lower = some n := by
  constructor
  · have hb : bitLen 64 n ≤ 64 := bitLen_le 64 n
    have hshift : 64 - leading_zeros n = bitLen 64 n := by
      unfold leading_zeros; omega
    simp only [Gts.replace_lower]
    rw [hshift, shiftRight_shiftLeft_eq L _ hL hb]
  · rfl

/-- Witness for Claim C4's theorem at the spec's own boundary scenario: the
prior lower `1 << 26` overlaid with the compressed byte `0xFF` keeps the
high bits and replaces the low 8. -/
theorem c4_replace_lower_witness :
    (2 ^ 26 : Nat) < 2 ^ 64 ∧ (255 : Nat) < 2 ^ 63
    ∧ (Gts.replace_lower { lower := some (2 ^ 26), upper := none } 255).lower
        = some ((2 ^ 26 &&& ((2 ^ 64 - 1) ^^^ (2 ^ bitLen 64 255 - 1))) ||| 255) :=
  ⟨by norm_num, by norm_num,
   (c4_replace_lower (2 ^ 26) 255 none (by norm_num) (by norm_num)).1⟩

/-- Bookkeeping invariant of the accumulation loop of
`Timestamps::next_timestamped`: a successful return consumed exactly the
input prefix before the returned remainder, counted every consumed result,
appended exactly the pass-through data packets and tolerated malformed
markers to the accumulators, and consumed exactly one closing packet. -/
theorem next_timestamped_accounting (options : TimestampsConfiguration) :
    ∀ (input : List DecodeResult) (st : TimestampsState) (ps : List TracePacket)
      (ms : List MalformedPacket) (c : Nat) (g : TimestampedTracePackets)
      (st2 : TimestampsState) (rest : List DecodeResult),
      next_timestamped options st input ps ms c = .ok (g, st2, rest) →
      ∃ taken, input = taken ++ rest
        ∧ g.consumed_packets = c + taken.length
        ∧ g.packets.length = ps.length + countData taken
        ∧ g.malformed_packets.length = ms.length + countMal taken
        ∧ taken.length = countData taken + countMal taken + countGts taken + 1
        ∧ ∀ p ∈ g.packets, p ∈ ps ∨ isGtsPacket p = false := by
  intro input
  induction input with
  | nil =>
    intro st ps ms c g st2 rest h
    exact absurd h (by simp [next_timestamped])
  | cons ev tail ih =>
    intro st ps ms c g st2 rest h
    cases ev with
    | malformed m =>
      by_cases hm : options.expect_malformed
      · simp only [next_timestamped, hm, if_true] at h
        obtain ⟨t, ht, h1, h2, h3, h4, h5⟩ := ih st ps (ms ++ [m]) (c + 1) g st2 rest h
        refine ⟨.malformed m :: t, by simp [ht], ?_, ?_, ?_, ?_, h5⟩
        · simp only [List.length_cons]; omega
        · simpa [countData] using h2
        · simp only [countMal]
          simp only [List.length_append, List.length_cons, List.length_nil] at h3
          omega
        · simp only [countData, countMal, countGts, List.length_cons]; omega
      · simp [next_timestamped, hm] at h
    | ioError =>
      simp [next_timestamped] at h
    | packet p =>
      cases p with
      | LocalTimestamp1 ts dr =>
        simp only [next_timestamped, Except.ok.injEq, Prod.mk.injEq] at h
        obtain ⟨hg, hst, hrest⟩ := h
        refine ⟨[.packet (.LocalTimestamp1 ts dr)], by simp [hrest], ?_, ?_, ?_, ?_, ?_⟩
        · rw [← hg]; simp
        · rw [← hg]; simp [countData, isGtsPacket, isLtsPacket]
        · rw [← hg]; simp [countMal]
        · simp [countData, countMal, countGts, isGtsPacket, isLtsPacket]
        · rw [← hg]; intro q hq; exact Or.inl hq
      | LocalTimestamp2 ts =>
        simp only [next_timestamped, Except.ok.injEq, Prod.mk.injEq] at h
        obtain ⟨hg, hst, hrest⟩ := h
        refine ⟨[.packet (.LocalTimestamp2 ts)], by simp [hrest], ?_, ?_, ?_, ?_, ?_⟩
        · rw [← hg]; simp
        · rw [← hg]; simp [countData, isGtsPacket, isLtsPacket]
        · rw [← hg]; simp [countMal]
        · simp [countData, countMal, countGts, isGtsPacket, isLtsPacket]
        · rw [← hg]; intro q hq; exact Or.inl hq
      | GlobalTimestamp1 ts wrap clkch =>
        simp only [next_timestamped] at h
        obtain ⟨t, ht, h1, h2, h3, h4, h5⟩ := ih _ ps ms (c + 1) g st2 rest h
        refine ⟨.packet (.GlobalTimestamp1 ts wrap clkch) :: t, by simp [ht], ?_, ?_, ?_, ?_, h5⟩
        · simp only [List.length_cons]; omega
        · simpa [countData, isGtsPacket] using h2
        · simpa [countMal] using h3
        · simp [countData, countMal, countGts, isGtsPacket, List.length_cons]; omega
      | GlobalTimestamp2 ts =>
        simp only [next_timestamped] at h
        obtain ⟨t, ht, h1, h2, h3, h4, h5⟩ := ih _ ps ms (c + 1) g st2 rest h
        refine ⟨.packet (.GlobalTimestamp2 ts) :: t, by simp [ht], ?_, ?_, ?_, ?_, h5⟩
        · simp only [List.length_cons]; omega
        · simpa [countData, isGtsPacket] using h2
        · simpa [countMal] using h3
        · simp [countData, countMal, countGts, isGtsPacket, List.length_cons]; omega
      | Sync =>
        simp only [next_timestamped] at h
        obtain ⟨t, ht, h1, h2, h3, h4, h5⟩ := ih st _ ms (c + 1) g st2 rest h
        refine ⟨.packet .Sync :: t, by simp [ht], ?_, ?_, ?_, ?_, ?_⟩
        · simp only [List.length_cons]; omega
        · simp only [countData, isGtsPacket, isLtsPacket]
          simp only [List.length_append, List.length_cons, List.length_nil] at h2
          simp; omega
        · simpa [countMal] using h3
        · simp [countData, countMal, countGts, isGtsPacket, isLtsPacket, List.length_cons]
          omega
        · intro q hq
          rcases h5 q hq with hq2 | hq2
          · rcases List.mem_append.mp hq2 with hq3 | hq3
            · exact Or.inl hq3
            · simp only [List.mem_singleton] at hq3; subst hq3; exact Or.inr rfl
          · exact Or.inr hq2
      | Overflow =>
        simp only [next_timestamped] at h
        obtain ⟨t, ht, h1, h2, h3, h4, h5⟩ := ih st _ ms (c + 1) g st2 rest h
        refine ⟨.packet (.Overflow) :: t, by simp [ht], ?_, ?_, ?_, ?_, ?_⟩
        · simp only [List.length_cons]; omega
        · simp only [countData, isGtsPacket, isLtsPacket]
          simp only [List.length_append, List.length_cons, List.length_nil] at h2
          simp; omega
        · simpa [countMal] using h3
        · simp [countData, countMal, countGts, isGtsPacket, isLtsPacket, List.length_cons]
          omega
        · intro q hq
          rcases h5 q hq with hq2 | hq2
          · rcases List.mem_append.mp hq2 with hq3 | hq3
            · exact Or.inl hq3
            · simp only [List.mem_singleton] at hq3; subst hq3; exact Or.inr rfl
          · exact Or.inr hq2
      | Extension page =>
        simp only [next_timestamped] at h
        obtain ⟨t, ht, h1, h2, h3, h4, h5⟩ := ih st _ ms (c + 1) g st2 rest h
        refine ⟨.packet (.Extension page) :: t, by simp [ht], ?_, ?_, ?_, ?_, ?_⟩
        · simp only [List.length_cons]; omega
        · simp only [countData, isGtsPacket, isLtsPacket]
          simp only [List.length_append, List.length_cons, List.length_nil] at h2
          simp; omega
        · simpa [countMal] using h3
        · simp [countData, countMal, countGts, isGtsPacket, isLtsPacket, List.length_cons]
          omega
        · intro q hq
          rcases h5 q hq with hq2 | hq2
          · rcases List.mem_append.mp hq2 with hq3 | hq3
            · exact Or.inl hq3
            · simp only [List.mem_singleton] at hq3; subst hq3; exact Or.inr rfl
          · exact Or.inr hq2
      | ItmData port payload =>
        simp only [next_timestamped] at h
        obtain ⟨t, ht, h1, h2, h3, h4, h5⟩ := ih st _ ms (c + 1) g st2 rest h
        refine ⟨.packet (.ItmData port payload) :: t, by simp [ht], ?_, ?_, ?_, ?_, ?_⟩
        · simp only [List.length_cons]; omega
        · simp only [countData, isGtsPacket, isLtsPacket]
          simp only [List.length_append, List.length_cons, List.length_nil] at h2
          simp; omega
        · simpa [countMal] using h3
        · simp [countData, countMal, countGts, isGtsPacket, isLtsPacket, List.length_cons]
          omega
        · intro q hq
          rcases h5 q hq with hq2 | hq2
          · rcases List.mem_append.mp hq2 with hq3 | hq3
            · exact Or.inl hq3
            · simp only [List.mem_singleton] at hq3; subst hq3; exact Or.inr rfl
          · exact Or.inr hq2
      | EventCounterWrap cyc fold =>
        simp only [next_timestamped] at h
        obtain ⟨t, ht, h1, h2, h3, h4, h5⟩ := ih st _ ms (c + 1) g st2 rest h
        refine ⟨.packet (.EventCounterWrap cyc fold) :: t, by simp [ht], ?_, ?_, ?_, ?_, ?_⟩
        · simp only [List.length_cons]; omega
        · simp only [countData, isGtsPacket, isLtsPacket]
          simp only [List.length_append, List.length_cons, List.length_nil] at h2
          simp; omega
        · simpa [countMal] using h3
        · simp [countData, countMal, countGts, isGtsPacket, isLtsPacket, List.length_cons]
          omega
        · intro q hq
          rcases h5 q hq with hq2 | hq2
          · rcases List.mem_append.mp hq2 with hq3 | hq3
            · exact Or.inl hq3
            · simp only [List.mem_singleton] at hq3; subst hq3; exact Or.inr rfl
          · exact Or.inr hq2
      | ExceptionTrace e a =>
        simp only [next_timestamped] at h
        obtain ⟨t, ht, h1, h2, h3, h4, h5⟩ := ih st _ ms (c + 1) g st2 rest h
        refine ⟨.packet (.ExceptionTrace e a) :: t, by simp [ht], ?_, ?_, ?_, ?_, ?_⟩
        · simp only [List.length_cons]; omega
        · simp only [countData, isGtsPacket, isLtsPacket]
          simp only [List.length_append, List.length_cons, List.length_nil] at h2
          simp; omega
        · simpa [countMal] using h3
        · simp [countData, countMal, countGts, isGtsPacket, isLtsPacket, List.length_cons]
          omega
        · intro q hq
          rcases h5 q hq with hq2 | hq2
          · rcases List.mem_append.mp hq2 with hq3 | hq3
            · exact Or.inl hq3
            · simp only [List.mem_singleton] at hq3; subst hq3; exact Or.inr rfl
          · exact Or.inr hq2
      | PCSample pc =>
        simp only [next_timestamped] at h
        obtain ⟨t, ht, h1, h2, h3, h4, h5⟩ := ih st _ ms (c + 1) g st2 rest h
        refine ⟨.packet (.PCSample pc) :: t, by simp [ht], ?_, ?_, ?_, ?_, ?_⟩
        · simp only [List.length_cons]; omega
        · simp only [countData, isGtsPacket, isLtsPacket]
          simp only [List.length_append, List.length_cons, List.length_nil] at h2
          simp; omega
        · simpa [countMal] using h3
        · simp [countData, countMal, countGts, isGtsPacket, isLtsPacket, List.length_cons]
          omega
        · intro q hq
          rcases h5 q hq with hq2 | hq2
          · rcases List.mem_append.mp hq2 with hq3 | hq3
            · exact Or.inl hq3
            · simp only [List.mem_singleton] at hq3; subst hq3; exact Or.inr rfl
          · exact Or.inr hq2
      | DataTraceEvent comparator =>
        simp only [next_timestamped] at h
        obtain ⟨t, ht, h1, h2, h3, h4, h5⟩ := ih st _ ms (c + 1) g st2 rest h
        refine ⟨.packet (.DataTraceEvent comparator) :: t, by simp [ht], ?_, ?_, ?_, ?_, ?_⟩
        · simp only [List.length_cons]; omega
        · simp only [countData, isGtsPacket, isLtsPacket]
          simp only [List.length_append, List.length_cons, List.length_nil] at h2
          simp; omega
        · simpa [countMal] using h3
        · simp [countData, countMal, countGts, isGtsPacket, isLtsPacket, List.length_cons]
          omega
        · intro q hq
          rcases h5 q hq with hq2 | hq2
          · rcases List.mem_append.mp hq2 with hq3 | hq3
            · exact Or.inl hq3
            · simp only [List.mem_singleton] at hq3; subst hq3; exact Or.inr rfl
          · exact Or.inr hq2

/-- Claim C10: for every successfully emitted group, `consumed_packets`
equals `packets.length + malformed_packets.length` plus the number of
global-timestamp packets consumed while building the group plus one for the
closing local-timestamp packet; in particular `consumed_packets ≥ 1` and no
global-timestamp packet ever appears in the `packets` list. -/
theorem c10_consumed_conservation (options : TimestampsConfiguration)
    (st : TimestampsState) (input : List DecodeResult) (g : TimestampedTracePackets)
    (st2 : TimestampsState) (rest : List DecodeResult)
    (h : next_group options st input = .ok (g, st2, rest)) :
    rest = input.drop g.consumed_packets
    ∧ g.consumed_packets
        = g.packets.length + g.malformed_packets.length
          + countGts (input.take g.consumed_packets) + 1
    ∧ 1 ≤ g.consumed_packets
    ∧ ∀ p ∈ g.packets, isGtsPacket p = false := by
  obtain ⟨t, ht, h1, h2, h3, h4, h5⟩ :=
    next_timestamped_accounting options input st [] [] 0 g st2 rest h
  have hlen : t.length = g.consumed_packets := by omega
  have htake : input.take g.consumed_packets = t := by
    rw [ht, ← hlen]; exact List.take_left t rest
  have hdrop : input.drop g.consumed_packets = rest := by
    rw [ht, ← hlen]; exact List.drop_left t rest
  refine ⟨hdrop.symm, ?_, ?_, ?_⟩
  · rw [htake]
    simp only [List.length_nil, Nat.zero_add] at h2 h3
    omega
  · omega
  · intro p hp
    rcases h5 p hp with hp2 | hp2
    · exact absurd hp2 (List.not_mem_nil p)
    · exact hp2

/-- The group emitted in Claim C10's witness run: one `Overflow` packet
closed by an LTS2 with tick value 0. -/
def c10_example_group : TimestampedTracePackets :=
  { timestamp := .Sync 0, packets := [.Overflow], malformed_packets := [],
    consumed_packets := 2 }

/-- Witness for Claim C10's theorem on the concrete run of its example
group, discharging the success hypothesis by computation. -/
theorem c10_consumed_conservation_witness :
    ([] : List DecodeResult)
        = ([.packet .Overflow, .packet (.LocalTimestamp2 0)] : List DecodeResult).drop
            c10_example_group.consumed_packets
    ∧ c10_example_group.consumed_packets
        = c10_example_group.packets.length + c10_example_group.malformed_packets.length
          + countGts
              (([.packet .Overflow, .packet (.LocalTimestamp2 0)] : List DecodeResult).take
                c10_example_group.consumed_packets) + 1
    ∧ 1 ≤ c10_example_group.consumed_packets
    ∧ ∀ p ∈ c10_example_group.packets, isGtsPacket p = false :=
  c10_consumed_conservation
    { clock_frequency := 16000000, lts_prescaler := .Enabled, expect_malformed := false }
    initial_state [.packet .Overflow, .packet (.LocalTimestamp2 0)]
    c10_example_group initial_state [] (by rfl)
end Itm
